import Mathlib

set_option maxRecDepth 8192

/-!
Verification of the Chord discrete-event simulator (`sim/` and the
experiment driver `exp_4_churn.py`).

The Python source is shallowly embedded:

* identifiers are `Nat`, reduced modulo `MAX_ID = 2 ^ M` exactly where the
  source reduces them;
* the dict `env.nodes` is an association list `List (Nat × NodeState)` in
  insertion order (dict keys are unique in every reachable state; theorems
  that need uniqueness take it as a hypothesis);
* Python exceptions (`TypeError`, `AttributeError`, ...) are modelled with
  `Except PyErr`;
* the process-wide RNG is modelled by explicit parameters: `fresh` stands
  for a `random.getrandbits(M)` draw and `pick` for the index drawn by
  `random.choice`;
* the unbounded recursion of `find_successor_local` is modelled with an
  explicit `fuel` argument (fuel exhaustion plays the role of Python's
  `RecursionError`).
-/

/-- `M` from `sim/config.py`: number of bits of the identifier space. -/
def M : Nat := 160

/-- `MAX_ID = 2 ** M` from `sim/utils.py`. -/
def MAX_ID : Nat := 2 ^ M

/-- `BASE_LATENCY` from `sim/config.py` (0.005 s), as an exact rational. -/
def BASE_LATENCY : ℚ := 5 / 1000

/-- `STABILIZE_INTERVAL` from `sim/config.py` (1 s). -/
def STABILIZE_INTERVAL : ℚ := 1

/-- `SUCCESSOR_LIST_SIZE` from `sim/config.py`. -/
def SUCCESSOR_LIST_SIZE : Nat := 16

/-- `in_interval(key, start, end, inc_start, inc_end)` from `sim/utils.py`,
translated branch by branch (the Python parameter `end` is called `stop`
here because `end` is a Lean keyword). -/
def in_interval (key start stop : Nat) (inc_start inc_end : Bool) : Bool :=
  let key := key % MAX_ID
  let start := start % MAX_ID
  let stop := stop % MAX_ID
  if start < stop then
    -- straight interval
    if key == start && !inc_start then false
    else if key == stop && !inc_end then false
    else if inc_start && key == start then true
    else if inc_end && key == stop then true
    else decide (start < key ∧ key < stop)
  else
    -- wrapping interval: (start, MAX_ID) U [0, end)
    if key == start && !inc_start then false
    else if key == stop && !inc_end then false
    else
      let in_high := decide (key > start) || (inc_start && key == start)
      let in_low := decide (key < stop) || (inc_end && key == stop)
      in_high || in_low

/-- `mod_add` from `sim/utils.py`. -/
def mod_add (a b : Nat) : Nat := (a + b) % MAX_ID

/-- `mod_sub` from `sim/utils.py` (on naturals, Python's `(a - b) % 2^M`). -/
def mod_sub (a b : Int) : Int := (a - b) % (MAX_ID : Int)

/-- Python exceptions that the embedded code can raise. -/
inductive PyErr where
  | TypeError
  | AttributeError
  | KeyError
  | IndexError
  | RecursionError
deriving DecidableEq, Repr

/-- Python values carried as RPC message payloads (`None`, ints, lists of
ints are the only payload shapes the simulator ever sends). -/
inductive PyVal where
  | pynone
  | int (n : Nat)
  | intList (l : List Nat)
deriving DecidableEq, Repr

/-- `self.predecessor` (an `Option Nat`) as a message payload. -/
def optPyVal : Option Nat → PyVal
  | none => PyVal.pynone
  | some n => PyVal.int n

/-- An outgoing RPC recorded by a handler: destination, rpc name, payload.
The source id of the corresponding `SendMessage` is the handler's own
`node_id`. -/
structure Msg where
  dst : Nat
  rpc : String
  args : List PyVal
deriving DecidableEq, Repr

/-- The event variants of `sim/events.py`. -/
inductive Event where
  | NodeJoin (node_id : Option Nat)
  | NodeFail (node_id : Option Nat)
  | SendMessage (src_id dst_id : Nat) (rpc_name : String) (args : List PyVal)
  | ReceiveMessage (src_id dst_id : Nat) (rpc_name : String) (args : List PyVal)
  | TimeoutExpired (node_id : Nat) (timer_id : String)
  | StabilizeTick (node_id : Nat)
  | LookupEvent (start_id key_id : Nat)
deriving DecidableEq, Repr

/-- The mutable per-node state of `sim/node.py` (`Node.__init__`).
`env` back-references are passed explicitly; the unused
`outstanding_fix_requests` set is omitted. -/
structure NodeState where
  node_id : Nat
  physical_id : Nat
  count_stats : Bool
  finger : List (Option Nat)
  successor : Option Nat
  predecessor : Option Nat
  successor_list : List Nat
  next_finger : Nat
  active : Bool
  lookups : Nat
  lookup_fail : Nat
  pending : List (Nat × Nat)
deriving DecidableEq, Repr

/-- The fields of `Node.__init__` that are set before `_create_ring`/`_join`
run (`bootstrap_id` is threaded separately; `node_id = random.getrandbits(M)`
is the explicit `fresh` parameter; `physical_id` defaults to the node id). -/
def initNodeState (fresh : Nat) (count_stats : Bool) : NodeState :=
  { node_id := fresh
    physical_id := fresh
    count_stats := count_stats
    finger := List.replicate M none
    successor := none
    predecessor := none
    successor_list := []
    next_finger := 0
    active := true
    lookups := 0
    lookup_fail := 0
    pending := [] }

/-- `SimEnvironment` (`sim/environment.py`): the node registry in dict
insertion order, the `latest_ring` attribute (initially absent, i.e. `[]`
for the `getattr(..., [])` reads), and the scheduled-event queue as
(delay, event) pairs in scheduling order. -/
structure Env where
  nodes : List (Nat × NodeState)
  latest_ring : List Nat
  queue : List (ℚ × Event)
deriving DecidableEq, Repr

/-- A freshly constructed `SimEnvironment`. -/
def emptyEnv : Env :=
  { nodes := [], latest_ring := [], queue := [] }

/-- `[nid for nid, n in nodes.items() if n.active]` — the active node ids in
dict order. -/
def activeIds (nodes : List (Nat × NodeState)) : List Nat :=
  (nodes.filter (fun p => p.2.active)).map Prod.fst

/-- `sorted(nid for nid, n in env.nodes.items() if n.active)`.  Python's
`sorted` is modelled by insertion sort, which produces the same ascending
list on `Nat` keys. -/
def sortedRing (nodes : List (Nat × NodeState)) : List Nat :=
  List.insertionSort (fun a b => a ≤ b) (activeIds nodes)

/-- `bisect.bisect_left(a, x)` on a sorted list equals the number of
elements smaller than `x` (the repository calls it only on sorted lists). -/
def bisect_left (a : List Nat) (x : Nat) : Nat :=
  a.countP (fun y => y < x)

/-- The `idx = bisect_left(ring, k); if idx == len(ring): idx = 0; ring[idx]`
idiom used by `warm_up`, `lookup_iterative` and
`rpc_find_successor_response`: the owner of key `k` in the sorted ring.
Out-of-range access (empty ring) returns the default 0; the callers that can
actually face an empty ring model the `IndexError` separately. -/
def ringOwner (ring : List Nat) (k : Nat) : Nat :=
  let idx := bisect_left ring k
  ring.getD (if idx = ring.length then 0 else idx) 0

/-- `min(self.nodes)` — the smallest key of the node dict
(`_dispatch_event`, NodeJoin branch). Only evaluated on non-empty dicts. -/
def minKeys (nodes : List (Nat × NodeState)) : Nat :=
  match nodes.map Prod.fst with
  | [] => 0
  | k :: ks => ks.foldl min k

/-- `self.nodes[node.node_id] = node` (`register_node` and plain dict
assignment): replace the entry if the key is present, else append. -/
def dictInsert (nodes : List (Nat × NodeState)) (k : Nat) (v : NodeState) :
    List (Nat × NodeState) :=
  if nodes.any (fun p => p.1 == k) then
    nodes.map (fun p => if p.1 = k then (p.1, v) else p)
  else
    nodes ++ [(k, v)]

/-- Attribute mutation on the node object stored under key `k`. -/
def updateEntry (nodes : List (Nat × NodeState)) (k : Nat) (v : NodeState) :
    List (Nat × NodeState) :=
  nodes.map (fun p => if p.1 = k then (p.1, v) else p)

/-- `self.nodes[failed_node].active = False` (`_dispatch_event`, NodeFail). -/
def markFail (nodes : List (Nat × NodeState)) (k : Nat) :
    List (Nat × NodeState) :=
  nodes.map (fun p => if p.1 = k then (p.1, { p.2 with active := false }) else p)

/-- `self.latest_ring = sorted(nid for nid, n in self.nodes.items() if n.active)`. -/
def setLatestRing (env : Env) : Env :=
  { env with latest_ring := sortedRing env.nodes }

/-- Floor of log2 with structural fuel (enough fuel: `fuel ≥ n`). -/
def log2floorAux : Nat → Nat → Nat
  | 0, _ => 0
  | fuel + 1, n => if 2 ≤ n then log2floorAux fuel (n / 2) + 1 else 0

/-- `math.ceil(math.log2(n))` for a positive integer `n` (exact: the float
log2 of an integer below 2^52 never rounds across an integer boundary). -/
def ceilLog2 (n : Nat) : Nat :=
  if n ≤ 1 then 0 else log2floorAux n (n - 1) + 1

/-- `2 * math.ceil(math.log2(len(self.env.nodes) + 1))`
(`Node.lookup_iterative`). -/
def lookupBudget (env : Env) : Nat :=
  2 * ceilLog2 (env.nodes.length + 1)

/-- The scan `for i in range(M-1, -1, -1)` over `self.finger` inside
`closest_preceding_finger_local`, given the finger list already reversed. -/
def cpfScan (node_id id_key : Nat) : List (Option Nat) → Nat
  | [] => node_id
  | f :: rest =>
    match f with
    | some v =>
      if in_interval v node_id id_key false false then v
      else cpfScan node_id id_key rest
    | none => cpfScan node_id id_key rest

/-- `Node.closest_preceding_finger_local`: scan `finger[M-1] .. finger[0]`,
return the first non-`None` entry strictly inside `(node_id, id_key)`, else
`node_id`. (`finger` has length `M` in every reachable state; a hypothetical
longer list is truncated to its first `M` entries exactly as the
`range(M-1, -1, -1)` scan would be.) -/
def closest_preceding_finger_local (st : NodeState) (id_key : Nat) : Nat :=
  cpfScan st.node_id id_key ((st.finger.take M).reverse)

/-- `Node.find_successor_local`, with explicit recursion fuel; returns the
`node_id` of the `Node` object the Python function returns.
`env.nodes[...]` misses raise `KeyError`; a `None` successor raises
`TypeError` inside `in_interval`. -/
def find_successor_local (env : Env) : NodeState → Nat → Nat → Except PyErr Nat
  | _, _, 0 => .error .RecursionError
  | st, id_key, fuel + 1 =>
    if id_key = st.node_id then .ok st.node_id
    else
      match st.successor with
      | none => .error .TypeError
      | some succ =>
        if in_interval id_key st.node_id succ false true then
          match env.nodes.lookup succ with
          | none => .error .KeyError
          | some n => .ok n.node_id
        else
          match env.nodes.lookup (closest_preceding_finger_local st id_key) with
          | none => .error .KeyError
          | some n => find_successor_local env n id_key fuel

/-- `Node.timeout_duration` active-node count:
`max(1, sum(1 for node in self.env.nodes.values() if node.active))`. -/
def timeoutNodeCount (env : Env) : Nat :=
  max 1 (env.nodes.countP (fun p => p.2.active))

/-- `Node.timeout_duration`:
`4 * BASE_LATENCY * math.log2(max(1, #active))`, with the float `log2`
modelled as the exact real logarithm. -/
noncomputable def timeout_duration (env : Env) : ℝ :=
  4 * ((BASE_LATENCY : ℚ) : ℝ) * Real.logb 2 (timeoutNodeCount env)

/-- `Node.rpc_find_successor(self, src_id, id_key, req_id)`. A `None`
successor would raise `TypeError` inside `in_interval`. -/
def rpc_find_successor (st : NodeState) (src_id id_key req_id : Nat) :
    Except PyErr (NodeState × List Msg) :=
  match st.successor with
  | none => .error .TypeError
  | some successor =>
    if in_interval id_key st.node_id successor false true then
      .ok (st, [{ dst := src_id, rpc := "find_successor_response",
                  args := [PyVal.int id_key, PyVal.int req_id] }])
    else
      .ok (st, [{ dst := closest_preceding_finger_local st id_key,
                  rpc := "find_successor",
                  args := [PyVal.int id_key, PyVal.int req_id] }])

/-- `if req_id in self.pending: key = self.pending.pop(req_id)` — assoc-list
membership and removal. -/
def pendingPop (pending : List (Nat × Nat)) (req_id : Nat) :
    Option (Nat × List (Nat × Nat)) :=
  match pending.lookup req_id with
  | none => none
  | some key => some (key, pending.filter (fun p => p.1 ≠ req_id))

/-- `Node.rpc_find_successor_response(self, src_id, successor_id, req_id)`.
`ring[idx]` raises `IndexError` when `latest_ring` is empty. -/
def rpc_find_successor_response (env : Env) (st : NodeState)
    (src_id successor_id req_id : Nat) : Except PyErr (NodeState × List Msg) :=
  match pendingPop st.pending req_id with
  | some (key, pending') =>
    let ring := env.latest_ring
    let idx := bisect_left ring key
    let idx := if idx = ring.length then 0 else idx
    match ring.get? idx with
    | none => .error .IndexError
    | some owner =>
      if successor_id ≠ owner then
        .ok ({ st with pending := pending', lookup_fail := st.lookup_fail + 1 }, [])
      else
        .ok ({ st with pending := pending' }, [])
  | none =>
    .ok (st, [{ dst := src_id, rpc := "find_successor_response",
                args := [PyVal.int successor_id, PyVal.int req_id] }])

/-- `Node.rpc_notify(self, src_id)`. -/
def rpc_notify (st : NodeState) (src_id : Nat) : NodeState :=
  match st.predecessor with
  | none => { st with predecessor := some src_id }
  | some pred =>
    if in_interval src_id pred st.node_id false false then
      { st with predecessor := some src_id }
    else st

/-- `Node.rpc_get_predecessor(self, src_id)`: reply with our predecessor
(payload of exactly one positional argument). -/
def rpc_get_predecessor (st : NodeState) (src_id : Nat) : NodeState × List Msg :=
  (st, [{ dst := src_id, rpc := "get_predecessor_response",
          args := [optPyVal st.predecessor] }])

/-- `Node.rpc_get_successor_list(self, src_id)`: reply with a copy of our
successor list (payload of exactly one positional argument). -/
def rpc_get_successor_list (st : NodeState) (src_id : Nat) : NodeState × List Msg :=
  (st, [{ dst := src_id, rpc := "get_successor_list_response",
          args := [PyVal.intList st.successor_list] }])

/-- `Node.rpc_get_predecessor_response(self, pred_id)`. When it is actually
invoked through `receive_message`, `pred_id` is bound to the integer
`src_id` (see `receive_message`), so the `pred_id is not None` test is true
and `in_interval` runs — raising `TypeError` whenever `self.successor` is
`None`. -/
def rpc_get_predecessor_response (st : NodeState) (pred_id : Nat) :
    Except PyErr (NodeState × List Msg) :=
  match st.successor with
  | none => .error .TypeError
  | some succ =>
    let st :=
      if in_interval pred_id st.node_id succ false false then
        { st with successor := some pred_id }
      else st
    match st.successor with
    | none => .error .TypeError
    | some succ' =>
      .ok (st, [{ dst := succ', rpc := "notify", args := [] },
                { dst := succ', rpc := "get_successor_list", args := [] }])

/-- `Node.rpc_get_successor_list_response(self, successor_list)`. When it is
actually invoked through `receive_message` the single parameter is bound to
the integer `src_id`, and slicing an integer (`successor_list[:r-1]`) raises
`TypeError`. -/
def rpc_get_successor_list_response (st : NodeState) (v : PyVal) :
    Except PyErr (NodeState × List Msg) :=
  match v with
  | PyVal.intList l =>
    match st.successor with
    | some s =>
      .ok ({ st with successor_list := s :: l.take (SUCCESSOR_LIST_SIZE - 1) }, [])
    | none => .error .TypeError
  | _ => .error .TypeError

/-- `Node.rpc_notify_sync(self, src_id)` (same body as `rpc_notify`). -/
def rpc_notify_sync (st : NodeState) (src_id : Nat) : NodeState :=
  rpc_notify st src_id

/-- The number of positional parameters besides `self` of each `rpc_*`
method of class `Node` in `sim/node.py` (`none` for names the class does
not define). -/
def node_rpc_arity : String → Option Nat
  | "rpc_find_successor" => some 3
  | "rpc_find_successor_response" => some 3
  | "rpc_notify" => some 1
  | "rpc_get_predecessor" => some 1
  | "rpc_get_successor_list" => some 1
  | "rpc_get_predecessor_response" => some 1
  | "rpc_get_successor_list_response" => some 1
  | "rpc_notify_sync" => some 1
  | _ => none

/-- Read an int payload; a non-int where the handler body does integer
arithmetic raises `TypeError`. -/
def pyNat : PyVal → Except PyErr Nat
  | PyVal.int n => .ok n
  | _ => .error .TypeError

/-- Invoke the bound handler `rpc_<rpc_name>(src_id, *args)` once the
argument count has been checked (the first actual argument is `src_id`). -/
def call_rpc_handler (env : Env) (st : NodeState) (src_id : Nat) :
    String → List PyVal → Except PyErr (NodeState × List Msg)
  | "find_successor", [a, b] => do
    let id_key ← pyNat a
    let req_id ← pyNat b
    rpc_find_successor st src_id id_key req_id
  | "find_successor_response", [a, b] => do
    let successor_id ← pyNat a
    let req_id ← pyNat b
    rpc_find_successor_response env st src_id successor_id req_id
  | "notify", [] => .ok (rpc_notify st src_id, [])
  | "get_predecessor", [] => .ok (rpc_get_predecessor st src_id)
  | "get_successor_list", [] => .ok (rpc_get_successor_list st src_id)
  | "get_predecessor_response", [] =>
    -- parameter `pred_id` is bound to the integer `src_id`
    rpc_get_predecessor_response st src_id
  | "get_successor_list_response", [] =>
    -- parameter `successor_list` is bound to the integer `src_id`
    rpc_get_successor_list_response st (PyVal.int src_id)
  | "notify_sync", [] => .ok (rpc_notify_sync st src_id, [])
  | _, _ => .ok (st, [])

/-- `Node.receive_message(self, src_id, rpc_name, *args)`:
`handler = getattr(self, "rpc_" + rpc_name, None); if handler:
handler(src_id, *args)`. A missing handler is a silent no-op; calling a
handler whose parameter count does not match `1 + len(args)` raises
`TypeError`. (No message in the repository carries keyword arguments.) -/
def receive_message (env : Env) (st : NodeState) (src_id : Nat)
    (rpc_name : String) (args : List PyVal) : Except PyErr (NodeState × List Msg) :=
  match node_rpc_arity (String.append "rpc_" rpc_name) with
  | none => .ok (st, [])
  | some arity =>
    if 1 + args.length ≠ arity then .error .TypeError
    else call_rpc_handler env st src_id rpc_name args

/-- The successor-chain walk of the `count_stats` branch of
`lookup_iterative` (`for _ in range(SUCCESSOR_LIST_SIZE - 1)`): starting
from `cur`, follow `successor` pointers through live nodes and report
whether the chain reaches `actual`. A `None` link makes the next
`env.nodes.get(cur)` return `None` and the loop break. -/
def chainBridge (env : Env) (actual : Nat) : Option Nat → Nat → Bool
  | _, 0 => false
  | none, _ + 1 => false
  | some cur, k + 1 =>
    match env.nodes.lookup cur with
    | none => false
    | some nxt =>
      if !nxt.active then false
      else if nxt.successor = some actual then true
      else chainBridge env actual nxt.successor k

/-- `self.lookup_fail += 1` guarded by `count_stats`. -/
def bumpFail (count_stats : Bool) (slf : NodeState) : NodeState :=
  if count_stats then { slf with lookup_fail := slf.lookup_fail + 1 } else slf

/-- The stats block of `lookup_iterative` run when the key falls in
`(node, successor]`: compare `successor` with the owner in the freshly
sorted live ring and, if they differ and the successor chain does not
bridge the gap, count a failure. `live_ring[idx]` raises `IndexError` on an
empty live ring. -/
def lookupStats (env : Env) (slf : NodeState) (key_id successor : Nat) :
    Except PyErr NodeState :=
  let live_ring := sortedRing env.nodes
  let idx := bisect_left live_ring key_id
  let idx := if idx = live_ring.length then 0 else idx
  match live_ring.get? idx with
  | none => .error .IndexError
  | some actual =>
    if successor ≠ actual then
      -- the source repeats the comparison in a nested `if`
      if successor ≠ actual then
        if !chainBridge env actual (some successor) (SUCCESSOR_LIST_SIZE - 1) then
          .ok { slf with lookup_fail := slf.lookup_fail + 1 }
        else .ok slf
      else .ok slf
    else .ok slf

/-- The `for _ in range(hop_budget)` loop of `Node.lookup_iterative`:
`slf` is the node that issued the lookup (its counters are the ones
mutated), `nid` the cursor, `fuel` the remaining iterations. -/
def lookupLoop (env : Env) (key_id : Nat) (count_stats : Bool) :
    NodeState → List Nat → Nat → Nat → Except PyErr (Option Nat × NodeState)
  | slf, _, _, 0 => .ok (none, bumpFail count_stats slf)
  | slf, visited, nid, fuel + 1 =>
    match env.nodes.lookup nid with
    | none => .ok (none, bumpFail count_stats slf)
    | some node =>
      if !node.active || visited.contains nid then
        .ok (none, bumpFail count_stats slf)
      else
        if key_id = node.node_id then .ok (some node.node_id, slf)
        else
          match node.successor with
          | none => .error .TypeError
          | some successor =>
            if in_interval key_id node.node_id successor false true then
              if count_stats then
                match lookupStats env slf key_id successor with
                | .error err => .error err
                | .ok slf' => .ok (some successor, slf')
              else .ok (some successor, slf)
            else
              lookupLoop env key_id count_stats slf (nid :: visited)
                (closest_preceding_finger_local node key_id) fuel

/-- `Node.lookup_iterative(self, key_id, count_stats)`. Returns the looked
up node id (or `None`) together with the issuing node's updated state. -/
def lookup_iterative (env : Env) (slf : NodeState) (key_id : Nat)
    (count_stats : Bool) : Except PyErr (Option Nat × NodeState) :=
  let slf := if count_stats then { slf with lookups := slf.lookups + 1 } else slf
  lookupLoop env key_id count_stats slf [] slf.node_id (lookupBudget env)

/-- The per-node assignment of `warm_up(env)` (`exp_4_churn.py`): position
`idx` of `nid` in the sorted ring; successor is the next ring entry,
predecessor the previous one (`ring_ids[idx - 1]` with Python's negative
indexing), the successor list the next `r` entries, and fingers
`0 ≤ b < m` the bisect owners of `(nid + 2^b) mod MAX_ID`. Finger entries
at positions `≥ m` are untouched. -/
def warmNodeState (ring_ids : List Nat) (m nid : Nat) (node : NodeState) :
    NodeState :=
  let n_nodes := ring_ids.length
  let idx := ring_ids.indexOf nid
  { node with
    successor := some (ring_ids.getD ((idx + 1) % n_nodes) 0)
    predecessor := some (ring_ids.getD ((idx + n_nodes - 1) % n_nodes) 0)
    successor_list :=
      (List.range SUCCESSOR_LIST_SIZE).map
        (fun j => ring_ids.getD ((idx + j + 1) % n_nodes) 0)
    finger :=
      ((List.range m).map
        (fun b => some (ringOwner ring_ids ((nid + 2 ^ b) % MAX_ID))))
        ++ node.finger.drop m }

/-- The loop body of `warm_up` as a map over the registry: only nodes whose
id is in `ring_ids` — exactly the active ones — are touched. -/
def warmMapFun (ring_ids : List Nat) (m : Nat) (p : Nat × NodeState) :
    Nat × NodeState :=
  if p.2.active then (p.1, warmNodeState ring_ids m p.1 p.2) else p

/-- `warm_up(env)` from `exp_4_churn.py`. `none` models the two crashes the
source can hit: `next(iter(env.nodes))` on an empty dict raises
`StopIteration`, and `node.finger[b] = ...` raises `IndexError` when an
active node's finger list is shorter than `m` (the length of the first
node's finger list). In every reachable state all finger lists have length
`M` and neither happens. -/
def warmUp (env : Env) : Option Env :=
  let ring_ids := sortedRing env.nodes
  match env.nodes with
  | [] => none
  | first :: _ =>
    let m := first.2.finger.length
    if env.nodes.all (fun p => !p.2.active || m ≤ p.2.finger.length) then
      some { env with
        latest_ring := ring_ids
        nodes := env.nodes.map (warmMapFun ring_ids m) }
    else none

/-- `Node.__init__(env, bootstrap_id, ...)`: draw `node_id` (the explicit
`fresh` parameter models `random.getrandbits(M)`), register the node,
schedule the first `StabilizeTick` after `STABILIZE_INTERVAL`, then either
`_create_ring` (no bootstrap) or `_join(bootstrap_id)` — which looks the
bootstrap up in `env.nodes`, asks it for `find_successor_local(node_id)`,
initialises `finger = [successor] + [node_id]*(M-1)`,
`successor_list = [successor]`, and sends an asynchronous `notify` to the
successor (scheduled with delay 0). Returns the updated environment and the
new node's id. -/
def Node_init (env : Env) (bootstrap_id : Option Nat) (fresh : Nat)
    (count_stats : Bool) (fuel : Nat) : Except PyErr (Env × Nat) :=
  let st0 := initNodeState fresh count_stats
  let env1 : Env :=
    { env with
      nodes := dictInsert env.nodes fresh st0
      queue := env.queue ++ [(STABILIZE_INTERVAL, Event.StabilizeTick fresh)] }
  match bootstrap_id with
  | none =>
    -- _create_ring
    let st1 := { st0 with
      predecessor := none
      successor := some fresh
      finger := List.replicate M (some fresh)
      successor_list := List.replicate SUCCESSOR_LIST_SIZE fresh }
    .ok ({ env1 with nodes := updateEntry env1.nodes fresh st1 }, fresh)
  | some bid =>
    -- _join(bootstrap_id)
    match env1.nodes.lookup bid with
    | none => .error .KeyError
    | some bootstrap =>
      match find_successor_local env1 bootstrap fresh fuel with
      | .error err => .error err
      | .ok succ_id =>
        let st1 := { st0 with
          successor := some succ_id
          finger := some succ_id :: List.replicate (M - 1) (some fresh)
          successor_list := [succ_id]
          predecessor := none }
        let env2 := { env1 with nodes := updateEntry env1.nodes fresh st1 }
        .ok ({ env2 with
                queue := env2.queue ++ [(0, Event.SendMessage fresh succ_id "notify" [])] },
             fresh)

/-- The names of the methods the class `Node` in `sim/node.py` defines
(every `def` in the class body). -/
def node_method_names : List String :=
  ["__init__", "_schedule_stabilize", "_create_ring", "_join",
   "find_successor_local", "closest_preceding_finger_local",
   "timeout_duration", "join", "fail", "receive_message", "stabilize",
   "check_predecessor", "rpc_find_successor", "rpc_find_successor_response",
   "rpc_notify", "rpc_get_predecessor", "rpc_get_successor_list",
   "rpc_get_predecessor_response", "rpc_get_successor_list_response",
   "lookup_iterative", "rpc_notify_sync", "stabilize_sync",
   "check_predecessor_sync", "fix_specific_finger_sync"]

/-- Attribute lookup `node.<name>` on a `Node` instance: a name not in the
class raises `AttributeError`. -/
def node_has_method (name : String) : Bool :=
  node_method_names.contains name

/-- The bootstrap choice of the NodeJoin branch of
`SimEnvironment._dispatch_event`: `None` for the first node, else
`min(self.nodes)` — the smallest registered node id, active or not. -/
def nodeJoinBootstrap (env : Env) : Option Nat :=
  if env.nodes.isEmpty then none else some (minKeys env.nodes)

/-- `random.choice(live)`, with the RNG draw modelled by the `pick` index. -/
def chosenFail (env : Env) (pick : Nat) : Nat :=
  let live := activeIds env.nodes
  live.getD (pick % live.length) 0

/-- Append the `SendMessage` events a handler emitted (each
`env.send_message` schedules with delay 0). -/
def pushMsgs (env : Env) (src : Nat) (msgs : List Msg) : Env :=
  { env with
    queue := env.queue ++ msgs.map
      (fun msg => ((0 : ℚ), Event.SendMessage src msg.dst msg.rpc msg.args)) }

/-- `SimEnvironment._dispatch_event`, branch by branch. `fresh` models the
`random.getrandbits(M)` draw of a `Node` constructor, `pick` the
`random.choice` draw of the NodeFail branch, `fuel` the recursion depth
available to `find_successor_local`. -/
def dispatch_event (env : Env) (ev : Event) (fresh pick fuel : Nat) :
    Except PyErr Env :=
  match ev with
  | Event.NodeJoin _ =>
    -- the event's node_id field is never read
    match nodeJoinBootstrap env with
    | none =>
      match Node_init env none fresh false fuel with
      | .error err => .error err
      | .ok (env', _) => .ok (setLatestRing env')
    | some bootstrap =>
      match Node_init env (some bootstrap) fresh false fuel with
      | .error err => .error err
      | .ok (env', _) => .ok (setLatestRing env')
  | Event.NodeFail onid =>
    match onid with
    | some nid =>
      if env.nodes.any (fun p => p.1 == nid) then
        .ok (setLatestRing { env with nodes := markFail env.nodes nid })
      else .error .KeyError
    | none =>
      let live := activeIds env.nodes
      if live.length ≤ 1 then .ok env
      else
        .ok (setLatestRing { env with nodes := markFail env.nodes (chosenFail env pick) })
  | Event.SendMessage src dst rpc args =>
    .ok { env with queue := env.queue ++ [(BASE_LATENCY, Event.ReceiveMessage src dst rpc args)] }
  | Event.ReceiveMessage src dst rpc args =>
    match env.nodes.lookup dst with
    | none => .ok env
    | some node =>
      if node.active then
        match receive_message env node src rpc args with
        | .error err => .error err
        | .ok (st', msgs) =>
          .ok (pushMsgs { env with nodes := updateEntry env.nodes dst st' } dst msgs)
      else .ok env
  | Event.TimeoutExpired nid _ =>
    match env.nodes.lookup nid with
    | none => .ok env
    | some node =>
      if node.active then
        -- node.handle_timeout(...): the class defines no such method
        if node_has_method "handle_timeout" then .ok env
        else .error .AttributeError
      else .ok env
  | Event.StabilizeTick nid =>
    match env.nodes.lookup nid with
    | none => .ok env
    | some node =>
      if node.active then
        -- node.handle_stabilize_tick(): the class defines no such method
        if node_has_method "handle_stabilize_tick" then .ok env
        else .error .AttributeError
      else .ok env
  | Event.LookupEvent start_id key_id =>
    match env.nodes.lookup start_id with
    | none => .ok env
    | some node =>
      if node.active then
        match lookup_iterative env node key_id true with
        | .error err => .error err
        | .ok (_, st') => .ok { env with nodes := updateEntry env.nodes start_id st' }
      else .ok env

/-- `Node.stabilize`: ask the successor for its predecessor and successor
list (both messages carry no positional payload). -/
def stabilize (st : NodeState) : NodeState × List Msg :=
  match st.successor with
  | none => (st, [])
  | some succ =>
    (st, [{ dst := succ, rpc := "get_predecessor", args := [] },
          { dst := succ, rpc := "get_successor_list", args := [] }])

/-! ## Basic facts about `in_interval` -/

theorem in_interval_self_excl (k a : Nat) (hk : k < MAX_ID) (ha : a < MAX_ID) :
    in_interval k a a false false = decide (k ≠ a) := by
  unfold in_interval
  simp only [Nat.mod_eq_of_lt hk, Nat.mod_eq_of_lt ha]
  rw [if_neg (Nat.lt_irrefl a)]
  by_cases h2 : k = a
  · simp [h2]
  · simp [h2]
    omega

theorem in_interval_self_incl (k a : Nat) :
    in_interval k a a true true = true := by
  unfold in_interval
  rw [if_neg (Nat.lt_irrefl (a % MAX_ID))]
  by_cases h2 : k % MAX_ID = a % MAX_ID
  · simp [h2]
  · simp [h2]
    omega

theorem in_interval_inc_end_char (k a b : Nat) (hk : k < MAX_ID)
    (ha : a < MAX_ID) (hb : b < MAX_ID) :
    (in_interval k a b false true = true ↔
      ((a < b ∧ a < k ∧ k ≤ b) ∨ (b ≤ a ∧ k ≠ a ∧ (a < k ∨ k ≤ b)))) := by
  unfold in_interval
  simp only [Nat.mod_eq_of_lt hk, Nat.mod_eq_of_lt ha, Nat.mod_eq_of_lt hb]
  by_cases h1 : a < b <;> by_cases h2 : k = a <;> by_cases h3 : k = b <;>
    simp [h1, h2, h3] <;> omega

/-! ## Claim C3 -/

/-- **C3, counterexample.** The claim states that
`in_interval(x, a, a, false, false)` is `false` for every `x`; on the code
the wrapping branch is taken and any `x ≠ a` is accepted. At `x = 1`,
`a = 0` the call returns `true`. -/
theorem C3_counterexample : in_interval 1 0 0 false false = true := by decide

/-- **C3, amended.** For `start == end`, the fully exclusive interval is the
whole ring *minus the single point `a`* (not the empty set), and the fully
inclusive interval is the whole ring. -/
theorem C3_amended (x a : Nat) (hx : x < MAX_ID) (ha : a < MAX_ID) :
    in_interval x a a false false = decide (x ≠ a) ∧
      in_interval x a a true true = true :=
  ⟨in_interval_self_excl x a hx ha, in_interval_self_incl x a⟩

/-- **C3, witness.** The amended statement instantiated at `x = 1`, `a = 0`. -/
theorem C3_amended_witness :
    in_interval 1 0 0 false false = decide ((1 : Nat) ≠ 0) ∧
      in_interval 1 0 0 true true = true :=
  C3_amended 1 0 (by decide) (by decide)

/-! ## Claim C2 -/

/-- **C2, evaluation at the failing input.** A node with `node_id = 0` and
`successor = 5` receives `find_successor` for key `3` (which lies in
`(0, 5]`) with `req_id = 1` from `src = 7`. The source replies
`find_successor_response` with payload `(id_key, req_id) = (3, 1)`: the
reply carries the looked-up key, not `n.successor = 5` as the claim (and
the Chord protocol) require, even though the receiving handler binds this
first payload element as `successor_id`. -/
theorem C2_reply_carries_key :
    rpc_find_successor
        { initNodeState 0 false with successor := some 5 } 7 3 1 =
      .ok ({ initNodeState 0 false with successor := some 5 },
           [{ dst := 7, rpc := "find_successor_response",
              args := [PyVal.int 3, PyVal.int 1] }]) ∧
      [PyVal.int 3, PyVal.int 1] ≠ [PyVal.int 5, PyVal.int 1] :=
  ⟨rfl, by decide⟩

/-! ## Claim C4 -/

/-- **C4.** (1) Every `Node.__init__` — with or without a bootstrap —
appends a `StabilizeTick` for the new node with delay `STABILIZE_INTERVAL`
to the event queue; (2) the class `Node` defines no method
`handle_stabilize_tick`; (3) hence dispatching a `StabilizeTick` to a
registered active node raises `AttributeError`, so the periodic per-node
stabilization path can never run. -/
theorem C4_stabilize_tick_attribute_error :
    (∀ env bootstrap_id fresh count_stats fuel env' rid,
        Node_init env bootstrap_id fresh count_stats fuel = .ok (env', rid) →
        (STABILIZE_INTERVAL, Event.StabilizeTick fresh) ∈ env'.queue) ∧
    node_has_method "handle_stabilize_tick" = false ∧
    (∀ env nid node fresh pick fuel,
        env.nodes.lookup nid = some node → node.active = true →
        dispatch_event env (Event.StabilizeTick nid) fresh pick fuel =
          .error PyErr.AttributeError) := by
  refine ⟨?_, by decide, ?_⟩
  · intro env bid fresh cs fuel env' rid h
    cases bid with
    | none =>
      simp only [Node_init] at h
      simp only [Except.ok.injEq, Prod.mk.injEq] at h
      obtain ⟨h1, -⟩ := h
      subst h1
      simp
    | some bid =>
      simp only [Node_init] at h
      split at h
      · simp at h
      · split at h
        · simp at h
        · simp only [Except.ok.injEq, Prod.mk.injEq] at h
          obtain ⟨h1, -⟩ := h
          subst h1
          simp
  · intro env nid node fresh pick fuel hl ha
    have hm : node_has_method "handle_stabilize_tick" = false := rfl
    simp only [dispatch_event, hl, ha, hm, if_true, Bool.false_eq_true,
      if_false]

/-- **C4, witness.** A concrete instantiation: the first node (id 7) built
in a fresh environment has its tick in the queue, and delivering a
`StabilizeTick` to a registered active node (id 5) errors. -/
theorem C4_witness :
    (STABILIZE_INTERVAL, Event.StabilizeTick 7) ∈
        ((Node_init emptyEnv none 7 false 1).toOption.getD (emptyEnv, 0)).1.queue ∧
      dispatch_event
          { nodes := [(5, initNodeState 5 false)], latest_ring := [], queue := [] }
          (Event.StabilizeTick 5) 0 0 1 = .error PyErr.AttributeError :=
  ⟨C4_stabilize_tick_attribute_error.1 emptyEnv none 7 false 1
      ((Node_init emptyEnv none 7 false 1).toOption.getD (emptyEnv, 0)).1 7 rfl,
   C4_stabilize_tick_attribute_error.2.2
      { nodes := [(5, initNodeState 5 false)], latest_ring := [], queue := [] }
      5 (initNodeState 5 false) 0 0 1 (by decide) (by decide)⟩

/-! ## Claim C5 -/

/-- **C5.** The stabilization responses can never be delivered:
(1) `rpc_get_predecessor` replies with exactly one positional payload
argument, (2) so does `rpc_get_successor_list`; (3)–(4) delivering a
`get_predecessor_response` or `get_successor_list_response` message with
one payload argument to any registered active node makes
`receive_message` call the one-parameter handler with two positional
arguments, which raises `TypeError`. -/
theorem C5_stabilize_responses_type_error :
    (∀ st src_id, rpc_get_predecessor st src_id =
        (st, [{ dst := src_id, rpc := "get_predecessor_response",
                args := [optPyVal st.predecessor] }])) ∧
    (∀ st src_id, rpc_get_successor_list st src_id =
        (st, [{ dst := src_id, rpc := "get_successor_list_response",
                args := [PyVal.intList st.successor_list] }])) ∧
    (∀ env node src dst v fresh pick fuel,
        env.nodes.lookup dst = some node → node.active = true →
        dispatch_event env
            (Event.ReceiveMessage src dst "get_predecessor_response" [v])
            fresh pick fuel = .error PyErr.TypeError) ∧
    (∀ env node src dst v fresh pick fuel,
        env.nodes.lookup dst = some node → node.active = true →
        dispatch_event env
            (Event.ReceiveMessage src dst "get_successor_list_response" [v])
            fresh pick fuel = .error PyErr.TypeError) := by
  refine ⟨fun st src_id => rfl, fun st src_id => rfl, ?_, ?_⟩
  · intro env node src dst v fresh pick fuel hl ha
    have hr : receive_message env node src "get_predecessor_response" [v] =
        .error PyErr.TypeError := rfl
    simp only [dispatch_event, hl, ha, hr, if_true]
  · intro env node src dst v fresh pick fuel hl ha
    have hr : receive_message env node src "get_successor_list_response" [v] =
        .error PyErr.TypeError := rfl
    simp only [dispatch_event, hl, ha, hr, if_true]

/-- **C5, witness.** Concrete instantiation: node 5's reply to a
`get_predecessor` query carries one payload argument, and delivering such a
response to active node 5 raises `TypeError`. -/
theorem C5_witness :
    rpc_get_predecessor (initNodeState 5 false) 9 =
        (initNodeState 5 false,
         [{ dst := 9, rpc := "get_predecessor_response",
            args := [optPyVal (initNodeState 5 false).predecessor] }]) ∧
      dispatch_event
          { nodes := [(5, initNodeState 5 false)], latest_ring := [], queue := [] }
          (Event.ReceiveMessage 9 5 "get_predecessor_response" [PyVal.pynone])
          0 0 1 = .error PyErr.TypeError :=
  ⟨C5_stabilize_responses_type_error.1 (initNodeState 5 false) 9,
   C5_stabilize_responses_type_error.2.2.1
      { nodes := [(5, initNodeState 5 false)], latest_ring := [], queue := [] }
      (initNodeState 5 false) 9 5 PyVal.pynone 0 0 1 (by decide) (by decide)⟩

/-! ## Claim C7 -/

/-- The single-active-node environment refuting the claimed floor. -/
def envC7one : Env :=
  { nodes := [(5, initNodeState 5 false)], latest_ring := [], queue := [] }

/-- A two-active-node environment. -/
def envC7two : Env :=
  { nodes := [(5, initNodeState 5 false), (9, initNodeState 9 false)],
    latest_ring := [], queue := [] }

/-- **C7, counterexample.** With exactly one active node the claim says
`timeout_duration()` is still at least `4 * BASE_LATENCY`; the code returns
`4 * BASE_LATENCY * log2(1) = 0`, strictly below the claimed floor. -/
theorem C7_counterexample :
    timeout_duration envC7one < 4 * ((BASE_LATENCY : ℚ) : ℝ) := by
  unfold timeout_duration
  have h : timeoutNodeCount envC7one = 1 := by decide
  rw [h]
  simp only [Nat.cast_one, Real.logb_one, mul_zero]
  norm_num [BASE_LATENCY]

/-- **C7, amended.** `timeout_duration()` equals
`4 · BASE_LATENCY · log2(max(1, N_active))`: with at most one active node
it is exactly `0` (there is no floor at `4 · BASE_LATENCY`), and the bound
`4 · BASE_LATENCY ≤ timeout_duration()` holds exactly from two active nodes
on. -/
theorem C7_amended (env : Env) :
    (env.nodes.countP (fun p => p.2.active) ≤ 1 → timeout_duration env = 0) ∧
      (2 ≤ env.nodes.countP (fun p => p.2.active) →
        4 * ((BASE_LATENCY : ℚ) : ℝ) ≤ timeout_duration env) := by
  constructor
  · intro h
    unfold timeout_duration timeoutNodeCount
    have h1 : max 1 (env.nodes.countP (fun p => p.2.active)) = 1 := by omega
    rw [h1]
    simp
  · intro h
    unfold timeout_duration timeoutNodeCount
    have h1 : max 1 (env.nodes.countP (fun p => p.2.active)) =
        env.nodes.countP (fun p => p.2.active) := by omega
    rw [h1]
    have hpos : (0 : ℝ) ≤ 4 * ((BASE_LATENCY : ℚ) : ℝ) := by
      norm_num [BASE_LATENCY]
    have hlog : (1 : ℝ) ≤
        Real.logb 2 (env.nodes.countP (fun p => p.2.active)) := by
      have h2 : Real.logb 2 2 = 1 :=
        Real.logb_self_eq_one (by norm_num)
      rw [← h2]
      apply Real.logb_le_logb_of_le (by norm_num) (by norm_num)
      exact_mod_cast h
    calc 4 * ((BASE_LATENCY : ℚ) : ℝ)
        ≤ 4 * ((BASE_LATENCY : ℚ) : ℝ) *
            Real.logb 2 (env.nodes.countP (fun p => p.2.active)) :=
          le_mul_of_one_le_right hpos hlog

/-- **C7, witness.** The amended statement instantiated at the concrete
one- and two-active-node environments. -/
theorem C7_amended_witness :
    timeout_duration envC7one = 0 ∧
      4 * ((BASE_LATENCY : ℚ) : ℝ) ≤ timeout_duration envC7two :=
  ⟨(C7_amended envC7one).1 (by decide), (C7_amended envC7two).2 (by decide)⟩

/-! ## Claim C6 -/

theorem activeIds_cons (p : Nat × NodeState) (rest : List (Nat × NodeState)) :
    activeIds (p :: rest) =
      if p.2.active then p.1 :: activeIds rest else activeIds rest := by
  unfold activeIds
  rw [List.filter_cons]
  split_ifs with h
  · simp [h]
  · simp at h
    simp [h]

theorem mem_keys_of_mem_activeIds {nodes : List (Nat × NodeState)} {f : Nat}
    (h : f ∈ activeIds nodes) : f ∈ nodes.map Prod.fst := by
  unfold activeIds at h
  exact (List.Sublist.map Prod.fst (List.filter_sublist nodes)).mem h

theorem markFail_cons (p : Nat × NodeState) (rest : List (Nat × NodeState))
    (f : Nat) :
    markFail (p :: rest) f =
      (if p.1 = f then (p.1, { p.2 with active := false }) else p) ::
        markFail rest f := rfl

theorem markFail_of_not_mem {nodes : List (Nat × NodeState)} {f : Nat}
    (h : f ∉ nodes.map Prod.fst) : markFail nodes f = nodes := by
  induction nodes with
  | nil => rfl
  | cons p rest ih =>
    simp only [List.map_cons, List.mem_cons] at h
    push_neg at h
    rw [markFail_cons, if_neg (Ne.symm h.1), ih h.2]

theorem mem_markFail_of_ne {nodes : List (Nat × NodeState)}
    {p : Nat × NodeState} {f : Nat} (hp : p ∈ nodes) (hne : p.1 ≠ f) :
    p ∈ markFail nodes f := by
  unfold markFail
  have h : (if p.1 = f then (p.1, { p.2 with active := false }) else p) = p := by
    rw [if_neg hne]
  rw [← h]
  exact List.mem_map_of_mem _ hp

theorem activeIds_markFail_length {nodes : List (Nat × NodeState)} {f : Nat}
    (hnd : (nodes.map Prod.fst).Nodup) (hf : f ∈ activeIds nodes) :
    (activeIds (markFail nodes f)).length + 1 = (activeIds nodes).length := by
  induction nodes with
  | nil => simp [activeIds] at hf
  | cons p rest ih =>
    simp only [List.map_cons, List.nodup_cons] at hnd
    obtain ⟨hp1, hndr⟩ := hnd
    by_cases hpf : p.1 = f
    · rw [markFail_cons, if_pos hpf,
        markFail_of_not_mem (hpf ▸ hp1)]
      have hactive : p.2.active = true := by
        rw [activeIds_cons] at hf
        by_cases ha : p.2.active
        · exact ha
        · simp only [ha, Bool.false_eq_true, if_false] at hf
          exact absurd (mem_keys_of_mem_activeIds hf) (hpf ▸ hp1)
      rw [activeIds_cons, activeIds_cons]
      simp [hactive]
    · rw [markFail_cons, if_neg hpf]
      have hfrest : f ∈ activeIds rest := by
        rw [activeIds_cons] at hf
        by_cases ha : p.2.active
        · simp only [ha, if_true, List.mem_cons] at hf
          rcases hf with h | h
          · exact absurd h.symm hpf
          · exact h
        · simp only [ha, Bool.false_eq_true, if_false] at hf
          exact hf
      have hrec := ih hndr hfrest
      rw [activeIds_cons, activeIds_cons]
      by_cases ha : p.2.active <;> simp only [ha, if_true, Bool.false_eq_true,
        if_false, List.length_cons] <;> omega

/-- **C6.** Dispatching `NodeFail` with `node_id = None`:
with at least two active nodes the randomly chosen victim was active, is
marked inactive, every other node entry is unchanged, and the active count
drops by exactly one; with at most one active node the dispatcher returns
before touching anything, so the environment is unchanged — in particular
the active count can never drop from one to zero this way. -/
theorem C6_nodefail_unspecified (env : Env) (fresh pick fuel : Nat)
    (hnd : (env.nodes.map Prod.fst).Nodup) :
    (2 ≤ (activeIds env.nodes).length →
      dispatch_event env (Event.NodeFail none) fresh pick fuel =
        .ok (setLatestRing
          { env with nodes := markFail env.nodes (chosenFail env pick) }) ∧
      chosenFail env pick ∈ activeIds env.nodes ∧
      (activeIds (markFail env.nodes (chosenFail env pick))).length + 1 =
        (activeIds env.nodes).length ∧
      (∀ p ∈ env.nodes, p.1 ≠ chosenFail env pick →
        p ∈ markFail env.nodes (chosenFail env pick))) ∧
    ((activeIds env.nodes).length ≤ 1 →
      dispatch_event env (Event.NodeFail none) fresh pick fuel = .ok env) ∧
    ((activeIds env.nodes).length = 1 →
      ∃ env', dispatch_event env (Event.NodeFail none) fresh pick fuel = .ok env' ∧
        (activeIds env'.nodes).length = 1) := by
  have hdisp : ∀ h2 : ¬ (activeIds env.nodes).length ≤ 1,
      dispatch_event env (Event.NodeFail none) fresh pick fuel =
        .ok (setLatestRing
          { env with nodes := markFail env.nodes (chosenFail env pick) }) := by
    intro h2
    simp only [dispatch_event]
    rw [if_neg h2]
  have hdisp1 : ∀ _ : (activeIds env.nodes).length ≤ 1,
      dispatch_event env (Event.NodeFail none) fresh pick fuel = .ok env := by
    intro h1
    simp only [dispatch_event]
    rw [if_pos h1]
  refine ⟨?_, hdisp1, ?_⟩
  · intro h2
    have hmem : chosenFail env pick ∈ activeIds env.nodes := by
      unfold chosenFail
      have hlt : pick % (activeIds env.nodes).length <
          (activeIds env.nodes).length :=
        Nat.mod_lt _ (by omega)
      rw [List.getD_eq_getElem _ _ hlt]
      exact List.getElem_mem hlt
    exact ⟨hdisp (by omega), hmem, activeIds_markFail_length hnd hmem,
      fun p hp hne => mem_markFail_of_ne hp hne⟩
  · intro h1
    exact ⟨env, hdisp1 (by omega), h1⟩

/-- The three-active-node environment for the C6 witness. -/
def envC6three : Env :=
  { nodes := [(1, initNodeState 1 false), (2, initNodeState 2 false),
              (3, initNodeState 3 false)],
    latest_ring := [], queue := [] }

/-- The single-active-node environment for the C6 witness. -/
def envC6one : Env :=
  { nodes := [(4, initNodeState 4 false)], latest_ring := [], queue := [] }

/-- **C6, witness.** With three active nodes an unspecified `NodeFail`
removes exactly one active node; with a single active node it changes
nothing. -/
theorem C6_witness :
    (dispatch_event envC6three (Event.NodeFail none) 0 0 0 =
        .ok (setLatestRing
          { envC6three with
            nodes := markFail envC6three.nodes (chosenFail envC6three 0) }) ∧
      chosenFail envC6three 0 ∈ activeIds envC6three.nodes ∧
      (activeIds (markFail envC6three.nodes (chosenFail envC6three 0))).length + 1 =
        (activeIds envC6three.nodes).length ∧
      (∀ p ∈ envC6three.nodes, p.1 ≠ chosenFail envC6three 0 →
        p ∈ markFail envC6three.nodes (chosenFail envC6three 0))) ∧
      dispatch_event envC6one (Event.NodeFail none) 0 0 0 = .ok envC6one :=
  ⟨(C6_nodefail_unspecified envC6three 0 0 0 (by decide)).1 (by decide),
   (C6_nodefail_unspecified envC6one 0 0 0 (by decide)).2.1 (by decide)⟩

/-! ## Claim C9 -/

/-- The state `_create_ring` leaves the founding node in. -/
def singleSt (fresh : Nat) : NodeState :=
  { node_id := fresh
    physical_id := fresh
    count_stats := false
    finger := List.replicate M (some fresh)
    successor := some fresh
    predecessor := none
    successor_list := List.replicate SUCCESSOR_LIST_SIZE fresh
    next_finger := 0
    active := true
    lookups := 0
    lookup_fail := 0
    pending := [] }

/-- **C9.** A node created with no bootstrap in a fresh environment: its
successor is itself, all `M` finger entries point to itself, and
`lookup_iterative` returns its own id for every key of the ring. -/
theorem C9_single_node_ring (fresh k fuel : Nat) (hfresh : fresh < MAX_ID)
    (hk : k < MAX_ID) :
    Node_init emptyEnv none fresh false fuel =
      .ok ({ nodes := [(fresh, singleSt fresh)], latest_ring := [],
             queue := [(STABILIZE_INTERVAL, Event.StabilizeTick fresh)] }, fresh) ∧
    (singleSt fresh).successor = some fresh ∧
    (singleSt fresh).finger = List.replicate M (some fresh) ∧
    lookup_iterative
        { nodes := [(fresh, singleSt fresh)], latest_ring := [],
          queue := [(STABILIZE_INTERVAL, Event.StabilizeTick fresh)] }
        (singleSt fresh) k false = .ok (some fresh, singleSt fresh) := by
  refine ⟨?_, rfl, rfl, ?_⟩
  · simp only [Node_init, emptyEnv, dictInsert, updateEntry, initNodeState,
      singleSt, List.any_nil, List.map_cons, List.map_nil, if_pos rfl,
      List.nil_append, Bool.false_eq_true, if_false]
    rfl
  · have hlk : List.lookup fresh [(fresh, singleSt fresh)] =
        some (singleSt fresh) := by
      rw [List.lookup_cons]
      simp
    have hbudget : lookupBudget
        { nodes := [(fresh, singleSt fresh)], latest_ring := [],
          queue := [(STABILIZE_INTERVAL, Event.StabilizeTick fresh)] } = 2 := rfl
    unfold lookup_iterative
    rw [if_neg (by simp)]
    rw [hbudget]
    show lookupLoop _ k false (singleSt fresh) [] (singleSt fresh).node_id 2 =
      .ok (some fresh, singleSt fresh)
    unfold lookupLoop
    rw [show (singleSt fresh).node_id = fresh from rfl, hlk]
    simp only []
    rw [if_neg (by simp [singleSt])]
    by_cases hkf : k = fresh
    · rw [if_pos (by rw [hkf]; rfl)]
      rw [show (singleSt fresh).node_id = fresh from rfl]
    · rw [if_neg (by rw [show (singleSt fresh).node_id = fresh from rfl]; exact hkf)]
      rw [show (singleSt fresh).successor = some fresh from rfl]
      simp only []
      rw [if_pos ?_]
      · rfl
      · rw [show (singleSt fresh).node_id = fresh from rfl]
        rw [in_interval_inc_end_char k fresh fresh hk hfresh hfresh]
        right
        exact ⟨le_refl _, hkf, by omega⟩

/-- **C9, witness.** The single-node statement at `fresh = 5`, `k = 3`. -/
theorem C9_witness :
    Node_init emptyEnv none 5 false 0 =
      .ok ({ nodes := [(5, singleSt 5)], latest_ring := [],
             queue := [(STABILIZE_INTERVAL, Event.StabilizeTick 5)] }, 5) ∧
    (singleSt 5).successor = some 5 ∧
    (singleSt 5).finger = List.replicate M (some 5) ∧
    lookup_iterative
        { nodes := [(5, singleSt 5)], latest_ring := [],
          queue := [(STABILIZE_INTERVAL, Event.StabilizeTick 5)] }
        (singleSt 5) 3 false = .ok (some 5, singleSt 5) :=
  C9_single_node_ring 5 3 0 (by decide) (by decide)

/-! ## Claim C10 -/

theorem keys_map_ite_update (nodes : List (Nat × NodeState)) (k : Nat)
    (v : NodeState) :
    (nodes.map (fun p => if p.1 = k then (p.1, v) else p)).map Prod.fst =
      nodes.map Prod.fst := by
  rw [List.map_map]
  apply List.map_congr_left
  intro p _
  by_cases h : p.1 = k <;> simp [h]

theorem keys_dictInsert_self (nodes : List (Nat × NodeState)) (k : Nat)
    (v : NodeState) : k ∈ (dictInsert nodes k v).map Prod.fst := by
  unfold dictInsert
  split_ifs with h
  · rw [keys_map_ite_update]
    simp only [List.any_eq_true] at h
    obtain ⟨p, hp, hpk⟩ := h
    simp only [beq_iff_eq] at hpk
    rw [← hpk]
    exact List.mem_map_of_mem _ hp
  · simp

theorem mem_updateEntry_of_mem_keys {nodes : List (Nat × NodeState)}
    {k : Nat} (v : NodeState) (h : k ∈ nodes.map Prod.fst) :
    (k, v) ∈ updateEntry nodes k v := by
  induction nodes with
  | nil => simp at h
  | cons p rest ih =>
    simp only [List.map_cons, List.mem_cons] at h
    unfold updateEntry
    rw [List.map_cons]
    rcases h with h | h
    · rw [if_pos h.symm]
      rw [← h]
      exact List.mem_cons_self _ _
    · refine List.mem_cons_of_mem _ ?_
      exact ih h

theorem Node_init_new_node {env : Env} {bid : Option Nat}
    {fresh : Nat} {cs : Bool} {fuel : Nat} {env₂ : Env} {rid : Nat}
    (h : Node_init env bid fresh cs fuel = .ok (env₂, rid)) :
    ∃ st, (fresh, st) ∈ env₂.nodes ∧ st.node_id = fresh := by
  cases bid with
  | none =>
    simp only [Node_init] at h
    simp only [Except.ok.injEq, Prod.mk.injEq] at h
    obtain ⟨h1, -⟩ := h
    subst h1
    exact ⟨_, mem_updateEntry_of_mem_keys _ (keys_dictInsert_self _ _ _), rfl⟩
  | some b =>
    simp only [Node_init] at h
    split at h
    · simp at h
    · split at h
      · simp at h
      · simp only [Except.ok.injEq, Prod.mk.injEq] at h
        obtain ⟨h1, -⟩ := h
        subst h1
        exact ⟨_, mem_updateEntry_of_mem_keys _ (keys_dictInsert_self _ _ _), rfl⟩

/-- **C10.** The NodeJoin branch of `_dispatch_event`: (1) the dispatch
result is entirely independent of the event's `node_id` field; (2) whenever
the registry is non-empty the bootstrap is `min(env.nodes)` — the smallest
registered id; (3) that choice depends only on the registered keys, never
on the nodes' active flags (so an inactive minimum is still chosen); and
(4) the spawned node's identifier is the fresh RNG draw, not the event
field. -/
theorem C10_nodejoin_ignores_event :
    (∀ env e1 e2 fresh pick fuel,
        dispatch_event env (Event.NodeJoin e1) fresh pick fuel =
          dispatch_event env (Event.NodeJoin e2) fresh pick fuel) ∧
    (∀ env : Env, env.nodes ≠ [] →
        nodeJoinBootstrap env = some (minKeys env.nodes)) ∧
    (∀ envA envB : Env, envA.nodes.map Prod.fst = envB.nodes.map Prod.fst →
        nodeJoinBootstrap envA = nodeJoinBootstrap envB) ∧
    (∀ env e fresh pick fuel env',
        dispatch_event env (Event.NodeJoin e) fresh pick fuel = .ok env' →
        ∃ st, (fresh, st) ∈ env'.nodes ∧ st.node_id = fresh) := by
  refine ⟨fun env e1 e2 fresh pick fuel => rfl, ?_, ?_, ?_⟩
  · intro env h
    unfold nodeJoinBootstrap
    rw [if_neg (by simp [List.isEmpty_iff, h])]
  · intro envA envB h
    have hae : envA.nodes.isEmpty = envB.nodes.isEmpty := by
      cases ha : envA.nodes <;> cases hb : envB.nodes <;>
        rw [ha, hb] at h <;> simp_all
    unfold nodeJoinBootstrap minKeys
    rw [hae, h]
  · intro env e fresh pick fuel env' h
    simp only [dispatch_event] at h
    split at h
    · cases hni : Node_init env none fresh false fuel with
      | error err => rw [hni] at h; simp at h
      | ok pr =>
        obtain ⟨env₂, rid⟩ := pr
        rw [hni] at h
        simp only [Except.ok.injEq] at h
        subst h
        obtain ⟨st, hm, hi⟩ := Node_init_new_node hni
        exact ⟨st, hm, hi⟩
    · cases hni : Node_init env (some _) fresh false fuel with
      | error err => rw [hni] at h; simp at h
      | ok pr =>
        obtain ⟨env₂, rid⟩ := pr
        rw [hni] at h
        simp only [Except.ok.injEq] at h
        subst h
        obtain ⟨st, hm, hi⟩ := Node_init_new_node hni
        exact ⟨st, hm, hi⟩

/-- The inactive minimum-id node used by the C10 witness. -/
def nodeC10five : NodeState :=
  { initNodeState 5 false with active := false, successor := some 5 }

/-- A registry whose smallest id (5) belongs to an inactive node. -/
def envC10 : Env :=
  { nodes := [(5, nodeC10five), (9, initNodeState 9 false)],
    latest_ring := [], queue := [] }

/-- **C10, witness.** Joining `envC10`: the event id is ignored, the
bootstrap is the registry minimum 5 even though node 5 is inactive, and the
new node appears under the fresh RNG id 7. -/
theorem C10_witness :
    dispatch_event envC10 (Event.NodeJoin (some 123)) 7 0 1 =
        dispatch_event envC10 (Event.NodeJoin none) 7 0 1 ∧
      nodeJoinBootstrap envC10 = some (minKeys envC10.nodes) ∧
      minKeys envC10.nodes = 5 ∧
      (5, nodeC10five) ∈ envC10.nodes ∧ nodeC10five.active = false ∧
      (∃ st, (7, st) ∈
          ((dispatch_event envC10 (Event.NodeJoin none) 7 0 1).toOption.getD
            emptyEnv).nodes ∧ st.node_id = 7) :=
  ⟨C10_nodejoin_ignores_event.1 envC10 (some 123) none 7 0 1,
   C10_nodejoin_ignores_event.2.1 envC10 (by decide),
   by decide, by decide, by decide,
   C10_nodejoin_ignores_event.2.2.2 envC10 none 7 0 1
     ((dispatch_event envC10 (Event.NodeJoin none) 7 0 1).toOption.getD emptyEnv)
     rfl⟩

/-! ## Claim C8 -/

theorem warmMapFun_fst (ring_ids : List Nat) (m : Nat) (p : Nat × NodeState) :
    (warmMapFun ring_ids m p).1 = p.1 := by
  unfold warmMapFun
  split <;> rfl

theorem warmMapFun_active (ring_ids : List Nat) (m : Nat)
    (p : Nat × NodeState) : (warmMapFun ring_ids m p).2.active = p.2.active := by
  unfold warmMapFun
  split <;> rfl

theorem drop_length_append {α : Type} (m : Nat) (l1 l2 : List α)
    (h : l1.length = m) : List.drop m (l1 ++ l2) = l2 := by
  subst h
  exact List.drop_left l1 l2

theorem warmNodeState_idem (ring_ids : List Nat) (m nid : Nat)
    (node : NodeState) :
    warmNodeState ring_ids m nid (warmNodeState ring_ids m nid node) =
      warmNodeState ring_ids m nid node := by
  unfold warmNodeState
  simp only [NodeState.mk.injEq, and_true, true_and]
  rw [drop_length_append m _ _ (by simp)]

theorem warmMapFun_idem (ring_ids : List Nat) (m : Nat) (p : Nat × NodeState) :
    warmMapFun ring_ids m (warmMapFun ring_ids m p) = warmMapFun ring_ids m p := by
  unfold warmMapFun
  by_cases h : p.2.active
  · rw [if_pos h]
    have h2 : (warmNodeState ring_ids m p.1 p.2).active = true := h
    rw [if_pos h2]
    rw [warmNodeState_idem]
  · rw [if_neg h, if_neg h]

theorem warmNodeState_finger_length (ring_ids : List Nat) {m nid : Nat}
    {node : NodeState} (h : m ≤ node.finger.length) :
    (warmNodeState ring_ids m nid node).finger.length = node.finger.length := by
  simp [warmNodeState]
  omega

theorem warmMapFun_finger_length (ring_ids : List Nat) {m : Nat}
    {p : Nat × NodeState}
    (h : (!p.2.active || m ≤ p.2.finger.length) = true) :
    (warmMapFun ring_ids m p).2.finger.length = p.2.finger.length := by
  unfold warmMapFun
  by_cases ha : p.2.active
  · rw [if_pos ha]
    simp only [ha, Bool.not_true, Bool.false_or, decide_eq_true_eq] at h
    exact warmNodeState_finger_length ring_ids h
  · rw [if_neg ha]

theorem activeIds_map_warmMapFun (ring_ids : List Nat) (m : Nat)
    (nodes : List (Nat × NodeState)) :
    activeIds (nodes.map (warmMapFun ring_ids m)) = activeIds nodes := by
  induction nodes with
  | nil => rfl
  | cons p rest ih =>
    rw [List.map_cons, activeIds_cons, activeIds_cons, warmMapFun_active,
      warmMapFun_fst, ih]

theorem sortedRing_map_warmMapFun (ring_ids : List Nat) (m : Nat)
    (nodes : List (Nat × NodeState)) :
    sortedRing (nodes.map (warmMapFun ring_ids m)) = sortedRing nodes := by
  unfold sortedRing
  rw [activeIds_map_warmMapFun]

/-- **C8.** `warm_up` is idempotent: whenever `warm_up(env)` completes, a
second run leaves every node's state and `latest_ring` (indeed the whole
environment) unchanged. -/
theorem C8_warmup_idempotent (env : Env) :
    (warmUp env).bind warmUp = warmUp env := by
  obtain ⟨nodesv, lr, qu⟩ := env
  cases hn : nodesv with
  | nil =>
    simp only [warmUp]
    rfl
  | cons first rest =>
    by_cases hg : ((first :: rest).all
        (fun p => !p.2.active || first.2.finger.length ≤ p.2.finger.length)) = true
    · have h1 : warmUp ⟨first :: rest, lr, qu⟩ = some
          ⟨(first :: rest).map
            (warmMapFun (sortedRing (first :: rest)) first.2.finger.length),
           sortedRing (first :: rest), qu⟩ := by
        simp only [warmUp]
        rw [if_pos hg]
      rw [h1, Option.some_bind, List.map_cons]
      have hfirst : (!first.2.active ||
          first.2.finger.length ≤ first.2.finger.length) = true := by
        rw [List.all_cons] at hg
        exact ((Bool.and_eq_true _ _).mp hg).1
      have hfl : (warmMapFun (sortedRing (first :: rest)) first.2.finger.length
          first).2.finger.length = first.2.finger.length :=
        warmMapFun_finger_length _ hfirst
      have hg2 : ((warmMapFun (sortedRing (first :: rest)) first.2.finger.length
            first ::
            rest.map (warmMapFun (sortedRing (first :: rest))
              first.2.finger.length)).all
          (fun p => !p.2.active ||
            (warmMapFun (sortedRing (first :: rest)) first.2.finger.length
              first).2.finger.length ≤ p.2.finger.length)) = true := by
        rw [← List.map_cons]
        simp only [hfl, List.all_map, List.all_eq_true]
        rw [List.all_eq_true] at hg
        intro p hp
        have hh := hg p hp
        simp only [Function.comp_apply, warmMapFun_active,
          warmMapFun_finger_length _ hh]
        exact hh
      simp only [warmUp]
      rw [if_pos hg2, ← List.map_cons]
      have hsr : sortedRing ((first :: rest).map
          (warmMapFun (sortedRing (first :: rest)) first.2.finger.length)) =
          sortedRing (first :: rest) :=
        sortedRing_map_warmMapFun _ _ _
      simp only [Option.some.injEq, Env.mk.injEq]
      refine ⟨?_, hsr, trivial⟩
      rw [hsr, hfl, List.map_map]
      apply List.map_congr_left
      intro p _
      exact warmMapFun_idem _ _ p
    · have h1 : warmUp ⟨first :: rest, lr, qu⟩ = none := by
        simp only [warmUp]
        rw [if_neg hg]
      rw [h1]
      rfl

/-! ## Claim C1: owner lemmas for the sorted ring -/

/-- The successor assignment of `warm_up`: the ring entry after `x`
(wrapping), i.e. `ring_ids[(idx + 1) % n_nodes]`. -/
def ringNext (ring : List Nat) (x : Nat) : Nat :=
  ring.getD ((ring.indexOf x + 1) % ring.length) 0

theorem sorted_head_le {a : Nat} {t : List Nat}
    (h : (a :: t).Pairwise (· < ·)) : ∀ y ∈ a :: t, a ≤ y := by
  intro y hy
  rcases List.mem_cons.mp hy with rfl | hy
  · exact le_refl _
  · exact le_of_lt ((List.pairwise_cons.mp h).1 y hy)

theorem bisect_left_zero {l : List Nat} {k : Nat}
    (h : ∀ y ∈ l, ¬ y < k) : bisect_left l k = 0 := by
  unfold bisect_left
  rw [List.countP_eq_zero]
  intro y hy
  simpa using h y hy

theorem bisect_left_succ {l : List Nat} {k : Nat}
    (hs : l.Pairwise (· < ·)) :
    ∀ i (hi : i < l.length), l[i] < k →
      (i + 1 = l.length ∨ ∃ h1 : i + 1 < l.length, k ≤ l[i + 1]) →
      bisect_left l k = i + 1 := by
  induction l with
  | nil => intro i hi; simp at hi
  | cons a t ih =>
    intro i hi hlt hbound
    obtain ⟨hat, hts⟩ := List.pairwise_cons.mp hs
    cases i with
    | zero =>
      have ha : a < k := hlt
      unfold bisect_left
      rw [List.countP_cons_of_pos _ _ (by simpa using ha)]
      have ht0 : t.countP (fun y => y < k) = 0 := by
        rcases hbound with h1 | ⟨h1, h2⟩
        · have ht : t = [] := by
            simp only [List.length_cons] at h1
            exact List.length_eq_zero.mp (by omega)
          rw [ht]
          rfl
        · cases t with
          | nil => rfl
          | cons b t2 =>
            rw [List.countP_eq_zero]
            intro y hy
            have hby : b ≤ y := sorted_head_le hts y hy
            have hkb : k ≤ b := h2
            simp only [decide_eq_true_eq]
            omega
      unfold bisect_left at ht0
      rw [ht0]
    | succ j =>
      have hjt : j < t.length := by
        simp only [List.length_cons] at hi
        omega
      have htj : t[j] < k := hlt
      have hak : a < k := by
        have hmem : t[j] ∈ t := List.getElem_mem hjt
        have := hat t[j] hmem
        omega
      unfold bisect_left
      rw [List.countP_cons_of_pos _ _ (by simpa using hak)]
      have hrec := ih hts j hjt htj ?_
      · unfold bisect_left at hrec
        rw [hrec]
      · rcases hbound with h1 | ⟨h1, h2⟩
        · left
          simp only [List.length_cons] at h1
          omega
        · right
          refine ⟨by simp only [List.length_cons] at h1; omega, ?_⟩
          exact h2

theorem ringOwner_of_mem {l : List Nat} {k : Nat}
    (hs : l.Pairwise (· < ·)) (hk : k ∈ l) : ringOwner l k = k := by
  obtain ⟨i, hi, hik⟩ := List.getElem_of_mem hk
  have hlen : 0 < l.length := by omega
  cases i with
  | zero =>
    have hc : bisect_left l k = 0 := by
      apply bisect_left_zero
      intro y hy
      have hle : l[0] ≤ y := by
        cases l with
        | nil => simp at hlen
        | cons a t => exact sorted_head_le hs y hy
      rw [hik] at hle
      omega
    simp only [ringOwner, hc]
    rw [if_neg (by omega), List.getD_eq_getElem _ _ hlen]
    exact hik
  | succ j =>
    have hjlt : j < l.length := by omega
    have hjk : l[j] < k := by
      have hpw := List.pairwise_iff_getElem.mp hs j (j + 1) hjlt hi (by omega)
      rw [hik] at hpw
      exact hpw
    have hc : bisect_left l k = j + 1 :=
      bisect_left_succ hs j hjlt hjk (Or.inr ⟨hi, by rw [hik]⟩)
    simp only [ringOwner, hc]
    rw [if_neg (by omega), List.getD_eq_getElem _ _ hi]
    exact hik

theorem sorted_getElem_zero_le {l : List Nat} {y : Nat}
    (hs : l.Pairwise (· < ·)) (hy : y ∈ l) (h0 : 0 < l.length) :
    l[0] ≤ y := by
  cases l with
  | nil => simp at h0
  | cons a t => exact sorted_head_le hs y hy

theorem ringOwner_of_in_interval {l : List Nat} {x k : Nat}
    (hs : l.Pairwise (· < ·)) (hmax : ∀ y ∈ l, y < MAX_ID)
    (hx : x ∈ l) (hk : k < MAX_ID)
    (hin : in_interval k x (ringNext l x) false true = true) :
    ringOwner l k = ringNext l x := by
  have hi : l.indexOf x < l.length := List.indexOf_lt_length.mpr hx
  have hxe : l[l.indexOf x] = x := List.getElem_indexOf hi
  have hxmax : x < MAX_ID := hmax x hx
  by_cases hcase : l.indexOf x + 1 < l.length
  · -- x is not the last ring entry: the successor is the next element
    have hnext : ringNext l x = l[l.indexOf x + 1] := by
      unfold ringNext
      rw [Nat.mod_eq_of_lt hcase, List.getD_eq_getElem _ _ hcase]
    have hxn : x < l[l.indexOf x + 1] := by
      have hpw := List.pairwise_iff_getElem.mp hs (l.indexOf x)
        (l.indexOf x + 1) hi hcase (by omega)
      rw [hxe] at hpw
      exact hpw
    have hnmax : l[l.indexOf x + 1] < MAX_ID :=
      hmax _ (List.getElem_mem hcase)
    rw [hnext] at hin
    rw [in_interval_inc_end_char k x _ hk hxmax hnmax] at hin
    rcases hin with ⟨-, hxk, hkn⟩ | ⟨hle, -, -⟩
    · rw [hnext]
      have hc : bisect_left l k = l.indexOf x + 1 :=
        bisect_left_succ hs _ hi (by rw [hxe]; exact hxk)
          (Or.inr ⟨hcase, hkn⟩)
      simp only [ringOwner, hc]
      rw [if_neg (by omega), List.getD_eq_getElem _ _ hcase]
    · omega
  · -- x is the last ring entry: the successor wraps to the ring head
    have hilast : l.indexOf x + 1 = l.length := by omega
    have hlen : 0 < l.length := by omega
    have hnext : ringNext l x = l[0] := by
      unfold ringNext
      rw [hilast, Nat.mod_self, List.getD_eq_getElem _ _ hlen]
    have h0max : l[0] < MAX_ID := hmax _ (List.getElem_mem hlen)
    have h0le : l[0] ≤ x := sorted_getElem_zero_le hs hx hlen
    rw [hnext] at hin
    rw [in_interval_inc_end_char k x _ hk hxmax h0max] at hin
    have hin2 : k ≠ x ∧ (x < k ∨ k ≤ l[0]) := by
      rcases hin with ⟨hlt, -, -⟩ | ⟨-, hne, hor⟩
      · omega
      · exact ⟨hne, hor⟩
    rcases hin2.2 with hxk | hkl
    · -- k is clockwise past the last entry: all entries are < k
      rw [hnext]
      have hc : bisect_left l k = l.length := by
        rw [bisect_left_succ hs _ hi (by rw [hxe]; exact hxk) (Or.inl hilast),
          hilast]
      simp only [ringOwner, hc, if_true]
      rw [List.getD_eq_getElem _ _ hlen]
    · -- k is at or before the ring head: no entry is < k
      have hc : bisect_left l k = 0 := by
        apply bisect_left_zero
        intro y hy
        have := sorted_getElem_zero_le hs hy hlen
        omega
      rw [hnext]
      simp only [ringOwner, hc]
      rw [if_neg (by omega), List.getD_eq_getElem _ _ hlen]

theorem sortedRing_pairwise_lt {nodes : List (Nat × NodeState)}
    (hnd : (nodes.map Prod.fst).Nodup) :
    (sortedRing nodes).Pairwise (· < ·) := by
  have h1 : (activeIds nodes).Nodup :=
    List.Nodup.sublist (List.Sublist.map Prod.fst (List.filter_sublist nodes)) hnd
  have hperm : (sortedRing nodes).Perm (activeIds nodes) :=
    List.perm_insertionSort _ _
  have h2 : (sortedRing nodes).Nodup := hperm.nodup_iff.mpr h1
  have h3 : (sortedRing nodes).Pairwise (fun a b => a ≤ b) :=
    List.sorted_insertionSort _ _
  exact (h3.and h2).imp (fun h => lt_of_le_of_ne h.1 h.2)

theorem mem_sortedRing {nodes : List (Nat × NodeState)} {y : Nat} :
    y ∈ sortedRing nodes ↔ y ∈ activeIds nodes :=
  (List.perm_insertionSort _ _).mem_iff

theorem sortedRing_lt_MAX {nodes : List (Nat × NodeState)}
    (hids : ∀ p ∈ nodes, p.1 < MAX_ID) :
    ∀ y ∈ sortedRing nodes, y < MAX_ID := by
  intro y hy
  rw [mem_sortedRing] at hy
  unfold activeIds at hy
  obtain ⟨p, hp, rfl⟩ := List.mem_map.mp hy
  exact hids p (List.mem_of_mem_filter hp)

theorem mem_activeIds_of_mem {nodes : List (Nat × NodeState)}
    {p : Nat × NodeState} (hp : p ∈ nodes) (ha : p.2.active = true) :
    p.1 ∈ activeIds nodes :=
  List.mem_map_of_mem _ (List.mem_filter.mpr ⟨hp, ha⟩)

theorem lookup_mem {l : List (Nat × NodeState)} {k : Nat} {v : NodeState}
    (h : l.lookup k = some v) : (k, v) ∈ l := by
  induction l with
  | nil => simp [List.lookup] at h
  | cons p t ih =>
    obtain ⟨a, b⟩ := p
    rw [List.lookup_cons] at h
    by_cases hka : (k == a) = true
    · simp only [hka] at h
      simp only [Option.some.injEq] at h
      subst h
      rw [show k = a from by simpa using hka]
      exact List.mem_cons_self _ _
    · simp only [Bool.not_eq_true] at hka
      simp only [hka] at h
      exact List.mem_cons_of_mem _ (ih h)

theorem warmUp_spec {env env' : Env} (hw : warmUp env = some env') :
    env'.latest_ring = sortedRing env.nodes ∧
    env'.queue = env.queue ∧
    ∃ m, env'.nodes = env.nodes.map (warmMapFun (sortedRing env.nodes) m) := by
  unfold warmUp at hw
  split at hw
  · exact absurd hw (by simp)
  · simp only [] at hw
    split_ifs at hw with hg
    simp only [Option.some.injEq] at hw
    subst hw
    exact ⟨rfl, rfl, _, rfl⟩

theorem warmUp_active_node {env env' : Env} (hw : warmUp env = some env')
    (hcons : ∀ p ∈ env.nodes, p.2.node_id = p.1) :
    ∀ nid st, (nid, st) ∈ env'.nodes → st.active = true →
      st.node_id = nid ∧ nid ∈ activeIds env.nodes ∧
      st.successor = some (ringNext (sortedRing env.nodes) nid) := by
  obtain ⟨-, -, m, hnodes⟩ := warmUp_spec hw
  intro nid st hmem hact
  rw [hnodes] at hmem
  obtain ⟨p, hp, heq⟩ := List.mem_map.mp hmem
  by_cases hpa : p.2.active = true
  · unfold warmMapFun at heq
    rw [if_pos hpa] at heq
    obtain ⟨h1, h2⟩ := Prod.mk.injEq .. |>.mp heq
    refine ⟨?_, ?_, ?_⟩
    · rw [← h2]
      show p.2.node_id = nid
      rw [hcons p hp, h1]
    · rw [← h1]
      exact mem_activeIds_of_mem hp hpa
    · rw [← h2, ← h1]
      rfl
  · unfold warmMapFun at heq
    rw [if_neg hpa] at heq
    rw [heq] at hpa
    exact absurd hact hpa

theorem warmUp_sortedRing {env env' : Env} (hw : warmUp env = some env') :
    sortedRing env'.nodes = sortedRing env.nodes := by
  obtain ⟨-, -, m, hnodes⟩ := warmUp_spec hw
  rw [hnodes, sortedRing_map_warmMapFun]

/-- Soundness of the `lookup_iterative` loop on a warmed environment: if an
iteration returns a node id, that id is the bisect owner of the key in the
sorted active ring. (It may instead return `none` on budget exhaustion —
see the counterexample below.) -/
theorem lookupLoop_sound {env' : Env} {key : Nat} {ring : List Nat}
    (hsorted : ring.Pairwise (· < ·))
    (hmax : ∀ y ∈ ring, y < MAX_ID)
    (hk : key < MAX_ID)
    (hsucc : ∀ nid st, (nid, st) ∈ env'.nodes → st.active = true →
      st.node_id = nid ∧ nid ∈ ring ∧ st.successor = some (ringNext ring nid)) :
    ∀ fuel slf visited nid r st',
      lookupLoop env' key false slf visited nid fuel = .ok (some r, st') →
      r = ringOwner ring key := by
  intro fuel
  induction fuel with
  | zero =>
    intro slf visited nid r st' h
    simp only [lookupLoop] at h
    simp at h
  | succ n ih =>
    intro slf visited nid r st' h
    simp only [lookupLoop] at h
    cases hlk : List.lookup nid env'.nodes with
    | none =>
      rw [hlk] at h
      simp at h
    | some node =>
      simp only [hlk] at h
      have hnode := lookup_mem hlk
      by_cases hskip : (!node.active || visited.contains nid) = true
      · rw [if_pos hskip] at h
        simp at h
      · rw [if_neg hskip] at h
        have hact : node.active = true := by
          simp only [Bool.or_eq_true, Bool.not_eq_true', not_or] at hskip
          simp only [Bool.not_eq_false] at hskip
          exact hskip.1
        by_cases hkey : key = node.node_id
        · rw [if_pos hkey] at h
          simp only [Except.ok.injEq, Prod.mk.injEq, Option.some.injEq] at h
          obtain ⟨h1, -⟩ := h
          obtain ⟨hnid, hmem, -⟩ := hsucc nid node hnode hact
          have hr : r = nid := by rw [← h1, hnid]
          have hkeynid : key = nid := by rw [hkey, hnid]
          rw [hr, hkeynid]
          exact (ringOwner_of_mem hsorted hmem).symm
        · rw [if_neg hkey] at h
          cases hsuccv : node.successor with
          | none =>
            simp only [hsuccv] at h
            simp at h
          | some s =>
            simp only [hsuccv] at h
            obtain ⟨hnid, hmem, hsval⟩ := hsucc nid node hnode hact
            rw [hsuccv] at hsval
            have hseq : s = ringNext ring nid := by
              simpa using hsval
            by_cases hin : in_interval key node.node_id s false true = true
            · rw [if_pos hin] at h
              simp only [Bool.false_eq_true, if_false] at h
              simp only [Except.ok.injEq, Prod.mk.injEq, Option.some.injEq] at h
              obtain ⟨h1, -⟩ := h
              rw [← h1, hseq]
              symm
              apply ringOwner_of_in_interval hsorted hmax hmem hk
              rw [← hseq, ← hnid]
              exact hin
            · rw [if_neg hin] at h
              exact ih slf (nid :: visited)
                (closest_preceding_finger_local node key) r st' h

/-- **C1, amended.** After a successful `warm_up`, if `lookup_iterative`
(with `count_stats` off) from any start state returns a node id at all,
that id is exactly the bisect owner of the key in the sorted active ring.
(The original claim also asserted it always returns within the hop budget
`2·⌈log2(|env.nodes|+1)⌉`; the counterexample below shows the budget can be
exhausted, in which case the lookup returns `None`.) -/
theorem C1_lookup_returns_owner (env env' : Env) (key : Nat)
    (hw : warmUp env = some env')
    (hnd : (env.nodes.map Prod.fst).Nodup)
    (hcons : ∀ p ∈ env.nodes, p.2.node_id = p.1)
    (hids : ∀ p ∈ env.nodes, p.1 < MAX_ID)
    (hk : key < MAX_ID)
    (slf : NodeState) (r : Nat) (st' : NodeState)
    (h : lookup_iterative env' slf key false = .ok (some r, st')) :
    r = ringOwner (sortedRing env'.nodes) key := by
  rw [warmUp_sortedRing hw]
  have hsorted := sortedRing_pairwise_lt hnd
  have hmax := sortedRing_lt_MAX hids
  have hsucc : ∀ nid st, (nid, st) ∈ env'.nodes → st.active = true →
      st.node_id = nid ∧ nid ∈ sortedRing env.nodes ∧
      st.successor = some (ringNext (sortedRing env.nodes) nid) := by
    intro nid st hm ha
    obtain ⟨h1, h2, h3⟩ := warmUp_active_node hw hcons nid st hm ha
    exact ⟨h1, mem_sortedRing.mpr h2, h3⟩
  unfold lookup_iterative at h
  simp only [Bool.false_eq_true, if_false] at h
  exact lookupLoop_sound hsorted hmax hk hsucc _ slf [] slf.node_id r st' h

/-- A node exactly as `Node.__init__` leaves it before any ring setup. -/
def baseNode (nid : Nat) : NodeState := initNodeState nid false

/-- Ten active nodes clustered just below the key 512: ids
`512 - 2^i` for `i = 8..0` plus `513`. With perfect (warmed-up) fingers a
lookup of 512 from node 256 must walk the whole cluster —
`256, 384, 448, 480, 496, 504, 508, 510` — before reaching 511, but the hop
budget is only `2·⌈log2(10+1)⌉ = 8`. -/
def env10 : Env :=
  { nodes := [256, 384, 448, 480, 496, 504, 508, 510, 511, 513].map
      (fun nid => (nid, baseNode nid)),
    latest_ring := [], queue := [] }

/-- `env10` after `warm_up`. -/
def warm10 : Env := (warmUp env10).getD env10

/-- The warmed state of the start node 256. -/
def start10 : NodeState := (warm10.nodes.lookup 256).getD (baseNode 0)

/-- **C1, counterexample.** On `env10` the warm-up succeeds and the bisect
owner of key 512 is node 513, yet `lookup_iterative` from the active node
256 exhausts its hop budget of 8 and returns `None` — not the owner the
claim promises. -/
theorem C1_counterexample :
    (warmUp env10).isSome = true ∧
    start10.active = true ∧
    lookupBudget warm10 = 8 ∧
    ringOwner (sortedRing warm10.nodes) 512 = 513 ∧
    lookup_iterative warm10 start10 512 false = .ok (none, start10) :=
  ⟨by decide, by decide, by decide, by decide, rfl⟩

/-- The two-node environment of the C1 witness. -/
def envW : Env :=
  { nodes := [(10, baseNode 10), (20, baseNode 20)], latest_ring := [],
    queue := [] }

/-- `envW` after `warm_up`. -/
def warmW : Env := (warmUp envW).getD envW

/-- **C1, witness.** On the warmed two-node ring `{10, 20}` the lookup of
key 15 from node 10 returns 20, and the amended theorem identifies 20 as
the bisect owner of 15. -/
theorem C1_amended_witness : 20 = ringOwner (sortedRing warmW.nodes) 15 :=
  C1_lookup_returns_owner envW warmW 15 rfl (by decide) (by decide)
    (by decide) (by decide) (baseNode 10) 20 (baseNode 10) rfl
